import Mathlib

/-!
Shallow embedding of the `clichat` command-line chat console
(`src/index.ts` and `src/cli_chat.ts`) and proofs about it.

Conventions of the embedding:
* JavaScript strings are modelled as Lean `String` (sequences of `Char`);
  `undefined`/`null` string-valued data is modelled with `Option String`.
* JavaScript truthiness of an optional string (`undefined`, `null` and `""`
  are falsy) is modelled by `jsTruthy`.
* The wechaty collaborator (directory lookups and `say`) is modelled by a
  pure `Directory` value, and each observable action of a command handler
  (console log line, rendered table, directory lookup, outbound `say`) is
  recorded as an `Ev` event in the order the source performs it.
* The fixed regular expression literal of `commandLineParser` and the
  `RegExp` objects built by `search` are hand-compiled to executable Lean
  functions; see the comments on `matchAt` and `regexTestCI`.
-/

/-- The quote characters and some other characters that the tokenizer's
regular expression mentions, written via code points. -/
def squoteChar : Char := Char.ofNat 39

/-- Double quote character. -/
def dquoteChar : Char := Char.ofNat 34

/-- Backslash character. -/
def bslashChar : Char := Char.ofNat 92

/-- The control character `\x02`: inside a character class, the `\2` of the
source's regex literal `[^\\2]` is an octal escape denoting this character,
not a backreference. -/
def stxChar : Char := Char.ofNat 2

/-- `interface Arg` of `src/index.ts` / `src/cli_chat.ts`: one token produced
by `commandLineParser`, with `undefined` fields as `none`. -/
structure Arg where
  flag : Option String
  value : Option String
deriving DecidableEq

/-- Greedy run of characters satisfying `p` (the semantics of a greedy
character-class `+`/`*` item of the regex): returns the run and the rest. -/
def takeRun (p : Char → Bool) : List Char → List Char × List Char
  | [] => ([], [])
  | c :: cs =>
    if p c then
      let r := takeRun p cs
      (c :: r.1, r.2)
    else ([], c :: cs)

/-- Character class `[^= '"]` of the flag-name group of the tokenizer regex. -/
def flagClassChar (c : Char) : Bool :=
  !(c == '=' || c == ' ' || c == squoteChar || c == dquoteChar)

/-- Character class `[^- "']` of the unquoted-value group of the tokenizer
regex. -/
def bareValueChar (c : Char) : Bool :=
  !(c == '-' || c == ' ' || c == dquoteChar || c == squoteChar)

/-- The flag part `(?:-+([^= '"]+)[= ]?)?` of the tokenizer regex, at the
current position: returns the captured flag name (or `none` when the whole
optional group matches empty), the number of characters consumed, and the
rest of the input.  The backtracking of the greedy `-+` against the greedy
`([^= '"]+)` is compiled out: if at least one class character follows the
dashes the group takes all dashes as `-+` and the class run as the capture;
otherwise, when there are at least two dashes, `-+` gives up its last dash,
which the class (which admits `-`) captures; otherwise the group matches
empty and consumes nothing. -/
def matchFlag (cs : List Char) : Option String × Nat × List Char :=
  let d := takeRun (fun c => c == '-') cs
  if d.1.isEmpty then (none, 0, cs)
  else
    let k := takeRun flagClassChar d.2
    if k.1.isEmpty then
      if 2 ≤ d.1.length then
        match d.2 with
        | [] => (some "-", d.1.length, [])
        | c :: r =>
          if c == '=' || c == ' ' then (some "-", d.1.length + 1, r)
          else (some "-", d.1.length, d.2)
      else (none, 0, cs)
    else
      match k.2 with
      | [] => (some (String.mk k.1), d.1.length + k.1.length, [])
      | c :: r =>
        if c == '=' || c == ' ' then
          (some (String.mk k.1), d.1.length + k.1.length + 1, r)
        else (some (String.mk k.1), d.1.length + k.1.length, k.2)

/-- Position of the closing quote for the lazy quoted-content group
`([^\x02]+?)\2`: the least index holding the opening quote character `q`,
scanning character by character; a `\x02` character aborts the scan (the
content class excludes it). -/
def findClose (q : Char) : List Char → Option Nat
  | [] => none
  | c :: cs =>
    if c == q then some 0
    else if c == stxChar then none
    else (findClose q cs).map (fun n => n + 1)

/-- The value part `(?:(['"])([^\x02]+?)\2|([^- "']+))?` of the tokenizer
regex at the current position: the captured value (quoted content or bare
run, `none` when the optional group matches empty), characters consumed,
and the rest. -/
def matchValue (cs : List Char) : Option String × Nat × List Char :=
  match cs with
  | [] => (none, 0, [])
  | c :: tail =>
    if c == squoteChar || c == dquoteChar then
      match tail with
      | [] => (none, 0, cs)
      | t0 :: trest =>
        if t0 == stxChar then (none, 0, cs)
        else
          match findClose c trest with
          | some i => (some (String.mk (t0 :: trest.take i)), i + 3, trest.drop (i + 1))
          | none => (none, 0, cs)
    else
      let r := takeRun bareValueChar cs
      if r.1.isEmpty then (none, 0, cs) else (some (String.mk r.1), r.1.length, r.2)

/-- One application of the tokenizer regex
`/ *(?:-+([^= '"]+)[= ]?)?(?:(['"])([^\x02]+?)\2|([^- "']+))?/` at the
current position (the regex matches at every position since all its parts
are optional): total characters consumed, the `flag` capture, the token
value (`quote ? quotedContent : unquotedContent` of the source), and the
remaining input. -/
def matchAt (cs : List Char) : Nat × Option String × Option String × List Char :=
  let sp := takeRun (fun c => c == ' ') cs
  let fl := matchFlag sp.2
  let va := matchValue fl.2.2
  (sp.1.length + fl.2.1 + va.2.1, fl.1, va.1, va.2.2)

/-- The `matchAll` loop of `commandLineParser` (`src/index.ts` lines 32-45):
repeatedly apply the regex; an empty whole match is skipped and the scan
advances one character (the `lastIndex` bump JavaScript performs after an
empty global match); a non-empty match is pushed as an `Arg` even when both
captures are absent.  `fuel` bounds the number of iterations; the caller
passes `length + 1`, which is exact since every iteration either consumes
at least one character or terminates at the end of input. -/
def tokenizeLoop : Nat → List Char → List Arg
  | 0, _ => []
  | Nat.succ fuel, cs =>
    let m := matchAt cs
    if m.1 == 0 then
      match cs with
      | [] => []
      | _ :: t => tokenizeLoop fuel t
    else { flag := m.2.1, value := m.2.2.1 } :: tokenizeLoop fuel m.2.2.2

/-- `commandLineParser` of `src/index.ts` (lines 27-47). -/
def commandLineParser (command : String) : List Arg :=
  tokenizeLoop (command.data.length + 1) command.data

/-- `MessageInterface` data consumed by `respond`: the optional room of the
message, whether the message was sent by the logged-in account itself, and
the optional listener (recipient) contact. -/
structure MessageContext where
  room : Option String
  self : Bool
  listener : Option String
deriving DecidableEq

/-- Where `respond` sends the reply: the room, the listener contact
(`listener.say`), or back into the sender's own direct conversation
(`ctx.say`). -/
inductive ReplyTarget where
  | toRoom (id : String)
  | toListener (id : String)
  | toSenderDirect
deriving DecidableEq

/-- `respond` of `src/index.ts` (lines 356-372), identical in
`src/cli_chat.ts` (lines 141-157): resolve the reply target of an inbound
message; `Except.error` models the thrown `Error` (reply dropped). -/
def respond (ctx : MessageContext) : Except String ReplyTarget :=
  match ctx.room with
  | some r => Except.ok (ReplyTarget.toRoom r)
  | none =>
    if ctx.self then
      match ctx.listener with
      | some l => Except.ok (ReplyTarget.toListener l)
      | none => Except.error "Message target cannot be resolved"
    else Except.ok ReplyTarget.toSenderDirect

/-- JavaScript truthiness of an optional string: `undefined`/`null` and the
empty string are falsy. -/
def jsTruthy : Option String → Bool
  | none => false
  | some s => !(s == "")

/-- JavaScript `v || d` for an optional string `v` and string default `d`. -/
def jsOrDefault (v : Option String) (d : String) : String :=
  if jsTruthy v then v.getD d else d

/-- JavaScript `v || null` for an optional string `v`. -/
def jsOrNull (v : Option String) : Option String :=
  if jsTruthy v then v else none

/-- How `console.log` renders an interpolated optional string: `undefined`
when absent. -/
def showOpt : Option String → String
  | none => "undefined"
  | some s => s

/-- A contact of the modelled wechaty directory (`ContactInterface`): its id,
its display name (`contact.name()`), and its alias (`contact.alias()`,
with `""` standing for an unset alias, matching the `|| ''` of the source). -/
structure Contact where
  id : String
  name : String
  «alias» : String
deriving DecidableEq

/-- A room of the modelled wechaty directory (`RoomInterface`). -/
structure Room where
  id : String
  topic : String
deriving DecidableEq

/-- The modelled wechaty directory the bot is logged into. -/
structure Directory where
  contacts : List Contact
  rooms : List Room
deriving DecidableEq

/-- One observable action of a command handler, in program order: a console
log line, a rendered table, a directory lookup issued to the collaborator,
or an outbound `say`. -/
inductive Ev where
  | log (s : String)
  | contactTable (rows : List (String × String × String))
  | roomTable (rows : List (String × String))
  | findContact (name : String)
  | findRoom (topic : String)
  | findAllContacts (criteria : Option (String × String))
  | findAllRooms (criteria : Option String)
  | say (id : String) (msg : String)
deriving DecidableEq

/-- `truncate` of `src/index.ts` (lines 49-55). -/
def truncate (str : String) (maxLength : Nat) : String :=
  if maxLength < str.data.length then String.mk (str.data.take (maxLength - 3)) ++ "..."
  else str

/-- The character class `[.*+?^${}()|[\]\\]` of the metacharacter-escaping
`replace` in `CLI.search` (line 114). -/
def isRegexMeta (c : Char) : Bool :=
  c == '.' || c == '*' || c == '+' || c == '?' || c == '^' || c == '$' ||
  c == Char.ofNat 123 || c == Char.ofNat 125 || c == '(' || c == ')' ||
  c == '|' || c == '[' || c == ']' || c == bslashChar

/-- `pattern.replace(/[.*+?^${}()|[\]\\]/g, '\\$&')` of `CLI.search`:
prefix every regex metacharacter with a backslash. -/
def escapeRegexList : List Char → List Char
  | [] => []
  | c :: cs => if isRegexMeta c then bslashChar :: c :: escapeRegexList cs else c :: escapeRegexList cs

/-- Parse a regex source consisting of literal characters and
backslash-escaped characters back into the literal character sequence it
denotes (used by the modelled `RegExp.test`, see `regexTestCI`). -/
def unescapeSource : List Char → List Char
  | [] => []
  | [c] => [c]
  | c :: d :: ds =>
    if c == bslashChar then d :: unescapeSource ds
    else c :: unescapeSource (d :: ds)

/-- Modelled collaborator semantics: the ASCII case folding performed by the
`i` flag of `RegExp`. -/
def lowerChar (c : Char) : Char :=
  if 65 ≤ c.toNat && c.toNat ≤ 90 then Char.ofNat (c.toNat + 32) else c

/-- `needle` is a prefix of `hay`. -/
def prefCheck : List Char → List Char → Bool
  | [], _ => true
  | _ :: _, [] => false
  | a :: as, b :: bs => a == b && prefCheck as bs

/-- `needle` occurs as a contiguous substring of `hay`. -/
def subCheck (needle : List Char) (hay : List Char) : Bool :=
  match hay with
  | [] => needle.isEmpty
  | b :: t => prefCheck needle (b :: t) || subCheck needle t

/-- Modelled collaborator semantics: `new RegExp(source, 'i').test(subject)`
for the regex sources this program produces in literal mode (concatenations
of plain and backslash-escaped characters, for which `test` is
case-insensitive substring search of the denoted literal) and for the empty
source (which matches every subject). -/
def regexTestCI (source subject : String) : Bool :=
  subCheck ((unescapeSource source.data).map lowerChar) (subject.data.map lowerChar)

/-- `s.startsWith(c)` for a single-character prefix. -/
def strHeadIs (s : String) (c : Char) : Bool :=
  match s.data with
  | [] => false
  | a :: _ => a == c

/-- `s.endsWith(c)` for a single-character suffix. -/
def strLastIs (s : String) (c : Char) : Bool :=
  s.data.getLast? == some c

/-- The pattern-compilation step of `CLI.search` (lines 104-116): a pattern
that starts and ends with `/` has its interior (`pattern.slice(1, -1)`)
taken as the regex source as-is; any other pattern is metacharacter-escaped.
The resulting source is always compiled with the `i` flag.  (The `try`/
`catch` around an invalid slash-delimited source is not modelled: the
sources produced by the claims under study are always valid.) -/
def compileSearchRegex (pattern : String) : String :=
  if strHeadIs pattern '/' && strLastIs pattern '/' then
    String.mk ((pattern.data.drop 1).dropLast)
  else String.mk (escapeRegexList pattern.data)

/-- `Array.from(new Set([...a, ...b]))` over contacts: keep the first
occurrence of each element, preserving insertion order (fuel-based; the
fuel `l.length` is always sufficient since each step consumes the head). -/
def dedupFirstAux : Nat → List Contact → List Contact
  | 0, _ => []
  | _, [] => []
  | Nat.succ fuel, c :: l => c :: dedupFirstAux fuel (l.filter (fun x => !(x == c)))

/-- Order-preserving first-occurrence deduplication (JavaScript `Set`
semantics, with contacts compared by value since the collaborator model
interns contacts). -/
def dedupFirst (l : List Contact) : List Contact := dedupFirstAux l.length l

/-- `availableCommands` of `CLI.processCommand` (line 186). -/
def availableCommands : List String := ["send", "ls", "search"]

/-- The `usages` record of `CLI.processCommand` (lines 188-193). -/
def usageHelp : String :=
  "Usage: help <command>\n" ++ "Available commands: " ++ String.intercalate ", " availableCommands

/-- Usage string for `send`. -/
def usageSend : String := "Usage: send <target> -t <room|contact> -m <message>"

/-- Usage string for `ls`. -/
def usageLs : String := "Usage: ls [--contact | -c | --room | -r]"

/-- Usage string for `search`. -/
def usageSearch : String := "Usage: search <pattern> [-t | --targetType <room|contact>]"

/-- `usages[value]` lookup. -/
def usageOf (v : String) : String :=
  if v == "help" then usageHelp
  else if v == "send" then usageSend
  else if v == "ls" then usageLs
  else if v == "search" then usageSearch
  else ""

/-- The log line `Searching contacts using ${regex.source} ...`. -/
def searchingContactsLog (source : String) : String :=
  "Searching contacts using " ++ source ++ " ..."

/-- The log line `Searching rooms using ${regex.source} ...`. -/
def searchingRoomsLog (source : String) : String :=
  "Searching rooms using " ++ source ++ " ..."

/-- The room half of `CLI.search` (lines 159-178): runs when `targetType`
is unset (falsy) or `room`; finds rooms whose topic matches, then renders
either the matched-rooms table or the distinct no-match report. -/
def searchRooms (dir : Directory) (source : String) (targetType : Option String) : List Ev :=
  if !(jsTruthy targetType) || targetType == some "room" then
    let matched := dir.rooms.filter (fun r => regexTestCI source r.topic)
    let rows := matched.map (fun r => (truncate r.id 35, truncate r.topic 35))
    [Ev.log (searchingRoomsLog source), Ev.findAllRooms (some source)] ++
      (if 0 < rows.length then [Ev.log "- Matched Rooms:", Ev.roomTable rows]
       else [Ev.log "No matching rooms found :("])
  else []

/-- `CLI.search` of `src/index.ts` (lines 101-179).  The contact half runs
when `targetType` is unset or `contact`; it queries the directory by name
and by alias; if both queries are empty the method RETURNS EARLY (the
source's `// Early return. Do not proceed if result is empty.`), so the
room half is skipped; otherwise the merged, deduplicated contacts are
rendered and the room half follows.  `35` is `maxTableColumnCharNum`. -/
def search (dir : Directory) (pattern : String) (targetType : Option String) : List Ev :=
  let source := compileSearchRegex pattern
  if !(jsTruthy targetType) || targetType == some "contact" then
    let foundName := dir.contacts.filter (fun c => regexTestCI source c.name)
    let foundAlias := dir.contacts.filter (fun c => regexTestCI source c.«alias»)
    let pre := [Ev.log (searchingContactsLog source),
                Ev.findAllContacts (some ("name", source)),
                Ev.findAllContacts (some ("alias", source))]
    if foundName.isEmpty && foundAlias.isEmpty then
      pre ++ [Ev.log "No matching contacts found :("]
    else
      let merged := dedupFirst (foundName ++ foundAlias)
      let rows := merged.map (fun c => (truncate c.id 35, truncate c.«alias» 35, truncate c.name 35))
      (pre ++
        (if 0 < rows.length then [Ev.log "- Matched Contacts:", Ev.contactTable rows]
         else [Ev.log "No matching contacts found :("])) ++
        searchRooms dir source targetType
  else searchRooms dir source targetType

/-- The accumulating parse state of the `send` token loop of
`CLI.processCommand` (lines 197-213). -/
structure SendSt where
  target : Option String
  targetType : String
  message : Option String
  evs : List Ev
deriving DecidableEq

/-- The two log lines emitted for an unrecognized or extra `send` token
(lines 210-211). -/
def sendUnknownWarn (a : Arg) : List Ev :=
  [Ev.log ("Unknown option or too many targets: " ++ showOpt a.value), Ev.log usageSend]

/-- One iteration of the `send` token loop (lines 201-213): `-t` and `--targetType`
and `-m` and `--message` set their fields (silently overwriting any earlier
value), the first positional token becomes the target, anything else logs a
warning and the usage string and falls through to the next token. -/
def sendStep (st : SendSt) (a : Arg) : SendSt :=
  if a.flag == some "t" || a.flag == some "targetType" then
    { st with targetType := jsOrDefault a.value "contact" }
  else if a.flag == some "m" || a.flag == some "message" then
    { st with message := some (a.value.getD "") }
  else if !(jsTruthy a.flag) && !(jsTruthy st.target) then
    { st with target := some (a.value.getD "") }
  else
    { st with evs := st.evs ++ sendUnknownWarn a }

/-- Initial `send` parse state: `target = null`, `targetType = 'contact'`,
`message = null`. -/
def sendInit : SendSt :=
  { target := none, targetType := "contact", message := none, evs := [] }

/-- The whole `send` token loop over the tokens after the command name. -/
def sendLoop (st : SendSt) (args : List Arg) : SendSt :=
  args.foldl sendStep st

/-- `sendMessage` of `src/index.ts` (lines 374-389): look the target up in
the directory (rooms by exact topic for `targetType === "room"`, contacts
by exact name otherwise), report an error when absent, otherwise `say`. -/
def sendMessage (dir : Directory) (targetType target message : String) : List Ev :=
  if targetType == "room" then
    Ev.findRoom target ::
      (match dir.rooms.find? (fun r => r.topic == target) with
       | none => [Ev.log ("Error: " ++ targetType ++ " " ++ String.mk [dquoteChar] ++ target ++ String.mk [dquoteChar] ++ " not found.")]
       | some r => [Ev.say r.id message])
  else
    Ev.findContact target ::
      (match dir.contacts.find? (fun c => c.name == target) with
       | none => [Ev.log ("Error: " ++ targetType ++ " " ++ String.mk [dquoteChar] ++ target ++ String.mk [dquoteChar] ++ " not found.")]
       | some c => [Ev.say c.id message])

/-- The `send` branch of `CLI.processCommand` (lines 196-223): run the token
loop over `args[1..]`, then if the target or the message is missing (falsy)
show the usage string, otherwise delegate to `sendMessage`. -/
def processSend (dir : Directory) (args : List Arg) : List Ev :=
  let st := sendLoop sendInit (args.drop 1)
  if !(jsTruthy st.target) || !(jsTruthy st.message) then st.evs ++ [Ev.log usageSend]
  else st.evs ++ sendMessage dir st.targetType (st.target.getD "") (st.message.getD "")

/-- `args.getD i` with the empty token, modelling `{ ...args[i] }` (an
absent token spreads to an object with both fields `undefined`). -/
def argAt (args : List Arg) (i : Nat) : Arg :=
  args.getD i { flag := none, value := none }

/-- The `help` branch of `CLI.processCommand` (lines 224-243). -/
def processHelp (args : List Arg) : List Ev :=
  let a1 := argAt args 1
  if jsTruthy a1.flag then
    [Ev.log ("Unexpected flag " ++ showOpt a1.flag), Ev.log usageHelp]
  else if !(jsTruthy a1.value) then [Ev.log usageHelp]
  else if !(availableCommands.contains (a1.value.getD "")) then
    [Ev.log ("Unknown command " ++ a1.value.getD "" ++ "\n"), Ev.log usageHelp]
  else [Ev.log (usageOf (a1.value.getD ""))]

/-- `getAllRooms` of the `ls` branch (lines 256-268). -/
def lsRooms (dir : Directory) : List Ev :=
  [Ev.log "Getting the list of all rooms...", Ev.findAllRooms none,
   Ev.log "- List of Group Chats (Rooms):",
   Ev.roomTable (dir.rooms.map (fun r => (truncate r.id 35, truncate r.topic 35)))]

/-- `getAllContacts` of the `ls` branch (lines 270-282). -/
def lsContacts (dir : Directory) : List Ev :=
  [Ev.log "Getting the list of all contacts...", Ev.findAllContacts none,
   Ev.log "- List of Contacts:",
   Ev.contactTable (dir.contacts.map (fun c => (truncate c.id 35, truncate c.«alias» 35, truncate c.name 35)))]

/-- The `ls` branch of `CLI.processCommand` (lines 244-298).  With no flag
the source awaits `Promise.all([getAllRooms(), getAllContacts()])`; the
single-threaded interleaving of the two bodies is flattened here to rooms
followed by contacts (no claim under study depends on the `ls` event
order). -/
def processLs (dir : Directory) (args : List Arg) : List Ev :=
  let a1 := argAt args 1
  if jsTruthy a1.value then
    [Ev.log ("Unexpected argument " ++ showOpt a1.value ++ ". You should specify a flag instead of an argument."),
     Ev.log usageLs]
  else if !(jsTruthy a1.flag) then lsRooms dir ++ lsContacts dir
  else if a1.flag == some "contact" || a1.flag == some "c" then lsContacts dir
  else if a1.flag == some "room" || a1.flag == some "r" then lsRooms dir
  else [Ev.log ("Invalid flag " ++ showOpt a1.flag), Ev.log usageLs]

/-- The token loop of the `search` branch (lines 303-314): `-t` and `--targetType`
sets the target type (`|| null`), the first positional token becomes the
pattern, anything else logs a warning plus the usage string and ABORTS the
whole command (`return`), unlike the `send` loop. -/
def searchLoop : List Arg → Option String → Option String → List Ev ⊕ (Option String × Option String)
  | [], pat, tt => Sum.inr (pat, tt)
  | a :: rest, pat, tt =>
    if a.flag == some "t" || a.flag == some "targetType" then
      searchLoop rest pat (jsOrNull a.value)
    else if !(jsTruthy a.flag) && !(jsTruthy pat) then
      searchLoop rest (some (a.value.getD "")) tt
    else
      Sum.inl [Ev.log ("Unknown option or too many patterns: " ++ showOpt a.value), Ev.log usageSearch]

/-- The `search` branch of `CLI.processCommand` (lines 299-326). -/
def processSearch (dir : Directory) (args : List Arg) : List Ev :=
  match searchLoop (args.drop 1) none none with
  | Sum.inl evs => evs
  | Sum.inr (pat, tt) =>
    if !(jsTruthy pat) then [Ev.log "Please provide a search pattern.", Ev.log usageSearch]
    else search dir (pat.getD "") tt

/-- The whitespace characters removed by `String.prototype.trim` (ASCII
subset; the claims under study use ASCII input). -/
def jsWhitespaceChar (c : Char) : Bool :=
  c == ' ' || c == Char.ofNat 9 || c == Char.ofNat 10 || c == Char.ofNat 13 ||
  c == Char.ofNat 12 || c == Char.ofNat 11

/-- `line.trim()`. -/
def trimStr (s : String) : String :=
  String.mk (((s.data.dropWhile jsWhitespaceChar).reverse.dropWhile jsWhitespaceChar).reverse)

/-- `CLI.processCommand` of `src/index.ts` (lines 182-330): trim, tokenize,
return silently on an empty token list, then dispatch on the first token's
value. -/
def processCommand (dir : Directory) (line : String) : List Ev :=
  match commandLineParser (trimStr line) with
  | [] => []
  | a0 :: rest =>
    if a0.value == some "send" then processSend dir (a0 :: rest)
    else if a0.value == some "help" then processHelp (a0 :: rest)
    else if a0.value == some "ls" then processLs dir (a0 :: rest)
    else if a0.value == some "search" then processSearch dir (a0 :: rest)
    else [Ev.log ("Unknown command: " ++ showOpt a0.value)]

/-- `src/cli_chat.ts` contains a byte-identical copy of the tokenizer
(lines 26-46).  Its embedding is repeated below (suffix `B`) so that the
extensional equality of the two source functions can be stated and proved
rather than assumed.  Greedy character-class run, as in `takeRun`. -/
def takeRunB (p : Char → Bool) : List Char → List Char × List Char
  | [] => ([], [])
  | c :: cs =>
    if p c then
      let r := takeRunB p cs
      (c :: r.1, r.2)
    else ([], c :: cs)

/-- Flag part of the `src/cli_chat.ts` tokenizer regex, as in `matchFlag`. -/
def matchFlagB (cs : List Char) : Option String × Nat × List Char :=
  let d := takeRunB (fun c => c == '-') cs
  if d.1.isEmpty then (none, 0, cs)
  else
    let k := takeRunB flagClassChar d.2
    if k.1.isEmpty then
      if 2 ≤ d.1.length then
        match d.2 with
        | [] => (some "-", d.1.length, [])
        | c :: r =>
          if c == '=' || c == ' ' then (some "-", d.1.length + 1, r)
          else (some "-", d.1.length, d.2)
      else (none, 0, cs)
    else
      match k.2 with
      | [] => (some (String.mk k.1), d.1.length + k.1.length, [])
      | c :: r =>
        if c == '=' || c == ' ' then
          (some (String.mk k.1), d.1.length + k.1.length + 1, r)
        else (some (String.mk k.1), d.1.length + k.1.length, k.2)

/-- Closing-quote scan of the `src/cli_chat.ts` tokenizer, as in `findClose`. -/
def findCloseB (q : Char) : List Char → Option Nat
  | [] => none
  | c :: cs =>
    if c == q then some 0
    else if c == stxChar then none
    else (findCloseB q cs).map (fun n => n + 1)

/-- Value part of the `src/cli_chat.ts` tokenizer regex, as in `matchValue`. -/
def matchValueB (cs : List Char) : Option String × Nat × List Char :=
  match cs with
  | [] => (none, 0, [])
  | c :: tail =>
    if c == squoteChar || c == dquoteChar then
      match tail with
      | [] => (none, 0, cs)
      | t0 :: trest =>
        if t0 == stxChar then (none, 0, cs)
        else
          match findCloseB c trest with
          | some i => (some (String.mk (t0 :: trest.take i)), i + 3, trest.drop (i + 1))
          | none => (none, 0, cs)
    else
      let r := takeRunB bareValueChar cs
      if r.1.isEmpty then (none, 0, cs) else (some (String.mk r.1), r.1.length, r.2)

/-- One regex application of the `src/cli_chat.ts` tokenizer, as in `matchAt`. -/
def matchAtB (cs : List Char) : Nat × Option String × Option String × List Char :=
  let sp := takeRunB (fun c => c == ' ') cs
  let fl := matchFlagB sp.2
  let va := matchValueB fl.2.2
  (sp.1.length + fl.2.1 + va.2.1, fl.1, va.1, va.2.2)

/-- The `matchAll` loop of the `src/cli_chat.ts` tokenizer, as in
`tokenizeLoop`. -/
def tokenizeLoopB : Nat → List Char → List Arg
  | 0, _ => []
  | Nat.succ fuel, cs =>
    let m := matchAtB cs
    if m.1 == 0 then
      match cs with
      | [] => []
      | _ :: t => tokenizeLoopB fuel t
    else { flag := m.2.1, value := m.2.2.1 } :: tokenizeLoopB fuel m.2.2.2

/-- `commandLineParser` of `src/cli_chat.ts` (lines 26-46). -/
def cliChatCommandLineParser (command : String) : List Arg :=
  tokenizeLoopB (command.data.length + 1) command.data

/-- Events that interact with the collaborator: directory lookups and
outbound `say` calls (as opposed to console log lines and rendered
tables). -/
def hasActionEv : Ev → Bool
  | Ev.log _ => false
  | Ev.contactTable _ => false
  | Ev.roomTable _ => false
  | Ev.findContact _ => true
  | Ev.findRoom _ => true
  | Ev.findAllContacts _ => true
  | Ev.findAllRooms _ => true
  | Ev.say _ _ => true

/-- The rendered outcome of the room half of a `search`: the matched-rooms
table or the distinct no-match report. -/
def roomOutcomeEv : Ev → Bool
  | Ev.roomTable _ => true
  | Ev.log s => s == "No matching rooms found :("
  | _ => false

/-- The condition of the warning branch of the `send` token loop: the token
is not a `-t`/`--targetType` flag, not a `-m`/`--message` flag, and not a
first positional target. -/
def sendElseBranch (st : SendSt) (a : Arg) : Bool :=
  !(a.flag == some "t" || a.flag == some "targetType") &&
  !(a.flag == some "m" || a.flag == some "message") &&
  !(!(jsTruthy a.flag) && !(jsTruthy st.target))

/-- Whether an event is the `Unknown option ...` warning log of the `send`
token loop. -/
def isSendWarnEv : Ev → Bool
  | Ev.log s => prefCheck "Unknown option".data s.data
  | _ => false

/-- Case-insensitive literal-substring match: what the spec describes for
the escaped (fuzzy) search mode. -/
def containsCI (needle subject : String) : Bool :=
  subCheck (needle.data.map lowerChar) (subject.data.map lowerChar)

/-- The modelled `regex.test` applied to the source `CLI.search` compiles
from a raw pattern. -/
def searchPatternTest (pattern subject : String) : Bool :=
  regexTestCI (compileSearchRegex pattern) subject

/-- Follows the claim's words, for comparison with the code's condition: a
pattern is "wrapped in a pair of forward slashes" when it starts with one
slash and ends with another one, i.e. also has length at least two. -/
def pairSlashWrapped (p : String) : Bool :=
  strHeadIs p '/' && strLastIs p '/' && decide (2 ≤ p.data.length)

/-- Directory with no contacts and one room, for the search claims. -/
def roomOnlyDir : Directory :=
  { contacts := [], rooms := [{ id := "r1", topic := "alpha" }] }

/-- Directory with the single contact Bob, for the send claims. -/
def bobDir : Directory :=
  { contacts := [{ id := "c1", name := "Bob", «alias» := "" }], rooms := [] }

/-- The empty directory. -/
def emptyDir : Directory := { contacts := [], rooms := [] }

theorem takeRunB_eq (p : Char → Bool) : ∀ l, takeRunB p l = takeRun p l := by
  intro l
  induction l with
  | nil => rfl
  | cons c cs ih => simp [takeRun, takeRunB, ih]

theorem matchFlagB_eq (cs : List Char) : matchFlagB cs = matchFlag cs := by
  simp [matchFlag, matchFlagB, takeRunB_eq]

theorem findCloseB_eq (q : Char) : ∀ l, findCloseB q l = findClose q l := by
  intro l
  induction l with
  | nil => rfl
  | cons c cs ih => simp [findClose, findCloseB, ih]

theorem matchValueB_eq (cs : List Char) : matchValueB cs = matchValue cs := by
  cases cs with
  | nil => rfl
  | cons c tail =>
    cases tail with
    | nil => simp [matchValue, matchValueB, takeRunB_eq]
    | cons t0 trest => simp [matchValue, matchValueB, takeRunB_eq, findCloseB_eq]

theorem matchAtB_eq (cs : List Char) : matchAtB cs = matchAt cs := by
  simp [matchAt, matchAtB, takeRunB_eq, matchFlagB_eq, matchValueB_eq]

theorem tokenizeLoopB_eq : ∀ fuel cs, tokenizeLoopB fuel cs = tokenizeLoop fuel cs := by
  intro fuel
  induction fuel with
  | zero => intro cs; rfl
  | succ n ih =>
    intro cs
    simp only [tokenizeLoop, tokenizeLoopB, matchAtB_eq]
    split
    · cases cs with
      | nil => rfl
      | cons c t => exact ih t
    · simp [ih]

/-- C1: for every message context given to `respond`: a present room wins
regardless of `self`; a self-sent direct message goes to the listener when
one is present and raises the resolution error (nothing is sent) when not;
a direct message from the correspondent is answered into the sender's own
direct conversation. -/
theorem respond_resolves_reply_target (ctx : MessageContext) :
    (∀ r, ctx.room = some r → respond ctx = Except.ok (ReplyTarget.toRoom r)) ∧
    (ctx.room = none → ctx.self = true → ∀ l, ctx.listener = some l →
      respond ctx = Except.ok (ReplyTarget.toListener l)) ∧
    (ctx.room = none → ctx.self = true → ctx.listener = none →
      respond ctx = Except.error "Message target cannot be resolved") ∧
    (ctx.room = none → ctx.self = false → respond ctx = Except.ok ReplyTarget.toSenderDirect) := by
  refine ⟨?_, ?_, ?_, ?_⟩ <;> intros <;> simp_all [respond]

theorem respond_resolves_reply_target_witness :
    respond { room := some "r0", self := false, listener := none } =
      Except.ok (ReplyTarget.toRoom "r0") :=
  (respond_resolves_reply_target { room := some "r0", self := false, listener := none }).1 "r0" rfl

/-- C3: `tokenize` applied to `send 'John Doe' -t contact -m 'hi there'`
returns exactly the four tokens of the claim, in order, with the
unspecified field of each token undefined. -/
theorem tokenize_send_example :
    commandLineParser ("send " ++ String.mk [squoteChar] ++ "John Doe" ++ String.mk [squoteChar] ++
        " -t contact -m " ++ String.mk [squoteChar] ++ "hi there" ++ String.mk [squoteChar]) =
      [{ flag := none, value := some "send" },
       { flag := none, value := some "John Doe" },
       { flag := some "t", value := some "contact" },
       { flag := some "m", value := some "hi there" }] := by
  decide

/-- C9: the tokenizer of `src/index.ts` and the tokenizer of
`src/cli_chat.ts` are extensionally equal: on every input string both
`commandLineParser` functions return the identical token sequence. -/
theorem tokenizers_extensionally_equal (s : String) :
    commandLineParser s = cliChatCommandLineParser s := by
  simp [commandLineParser, cliChatCommandLineParser, tokenizeLoopB_eq]

theorem takeRun_append (p : Char → Bool) : ∀ l, (takeRun p l).1 ++ (takeRun p l).2 = l := by
  intro l
  induction l with
  | nil => rfl
  | cons c cs ih =>
    by_cases h : p c
    · simp [takeRun, h, ih]
    · simp [takeRun, h]

theorem takeRun_sat (p : Char → Bool) : ∀ l c, c ∈ (takeRun p l).1 → p c := by
  intro l
  induction l with
  | nil => intro c hc; simp [takeRun] at hc
  | cons a as ih =>
    intro c hc
    by_cases h : p a
    · simp [takeRun, h] at hc
      rcases hc with rfl | hc
      · exact h
      · exact ih c hc
    · simp [takeRun, h] at hc

theorem takeRun_replicate (p : Char → Bool) (c : Char) (h : p c) :
    ∀ n, takeRun p (List.replicate n c) = (List.replicate n c, []) := by
  intro n
  induction n with
  | zero => rfl
  | succ n ih => simp [List.replicate_succ, takeRun, h, ih]

theorem matchAt_nil : matchAt [] = (0, none, none, []) := rfl

theorem matchFlag_nil : matchFlag [] = (none, 0, []) := rfl

theorem matchValue_nil : matchValue [] = (none, 0, []) := rfl

theorem matchFlag_none (cs : List Char) (h : (matchFlag cs).1 = none) :
    matchFlag cs = (none, 0, cs) := by
  by_cases hd : (takeRun (fun c => c == '-') cs).1.isEmpty
  · simp [matchFlag, hd]
  · by_cases hk : (takeRun flagClassChar (takeRun (fun c => c == '-') cs).2).1.isEmpty
    · by_cases hl : 2 ≤ (takeRun (fun c => c == '-') cs).1.length
      · exfalso
        simp only [matchFlag, hd, hk, hl] at h
        rcases hcs : (takeRun (fun c => c == '-') cs).2 with _ | ⟨c, r⟩ <;>
          simp [hcs] at h
        split at h <;> simp at h
      · simp [matchFlag, hd, hk, hl]
    · exfalso
      simp only [matchFlag, hd, hk] at h
      rcases hk2 : (takeRun flagClassChar (takeRun (fun c => c == '-') cs).2).2 with _ | ⟨c, r⟩ <;>
        simp [hk2] at h
      split at h <;> simp at h

theorem matchValue_none (cs : List Char) (h : (matchValue cs).1 = none) :
    matchValue cs = (none, 0, cs) := by
  cases cs with
  | nil => rfl
  | cons c tail =>
    by_cases hq : (c == squoteChar || c == dquoteChar) = true
    · cases tail with
      | nil => simp [matchValue, hq]
      | cons t0 trest =>
        by_cases hs : (t0 == stxChar) = true
        · simp [matchValue, hq, hs]
        · rcases hf : findClose c trest with _ | i
          · simp [matchValue, hq, hs, hf]
          · exfalso
            simp [matchValue, hq, hs, hf] at h
    · by_cases hr : (takeRun bareValueChar (c :: tail)).1.isEmpty
      · simp [matchValue, hq, hr]
      · exfalso
        simp [matchValue, hq, hr] at h

theorem tokenizeLoop_nil : ∀ fuel, tokenizeLoop fuel [] = [] := by
  intro fuel
  cases fuel <;> rfl

/-- C7 counterexample: the single-space input (a whitespace-only string)
does not tokenize to the empty sequence; it yields one token with neither
`flag` nor `value` defined. -/
theorem tokenize_whitespace_only_cex :
    commandLineParser " " = [{ flag := none, value := none }] ∧
    commandLineParser " " ≠ [] := by
  decide

/-- C7 (amended): `tokenize` of the empty string is the empty sequence, but
a token with neither field defined can be emitted: a nonempty string of
spaces yields exactly one such degenerate token, and in general whenever
one regex application captures neither a flag nor a value, the characters
it consumed were all spaces (so degenerate tokens arise exactly from runs
of spaces not followed by a flag or a value). -/
theorem tokenize_degenerate_token_behavior :
    commandLineParser "" = [] ∧
    (∀ n : Nat, commandLineParser (String.mk (List.replicate (n + 1) ' ')) =
      [{ flag := none, value := none }]) ∧
    (∀ cs : List Char, (matchAt cs).2.1 = none → (matchAt cs).2.2.1 = none →
      cs.take (matchAt cs).1 = List.replicate (matchAt cs).1 ' ') := by
  refine ⟨rfl, ?_, ?_⟩
  · intro n
    show tokenizeLoop ((List.replicate (n + 1) ' ').length + 1) (List.replicate (n + 1) ' ') =
      [{ flag := none, value := none }]
    have hm : matchAt (List.replicate (n + 1) ' ') = (n + 1, none, none, []) := by
      simp only [matchAt, takeRun_replicate (fun c => c == ' ') ' ' (by decide) (n + 1),
        matchFlag_nil, matchValue_nil, List.length_replicate, Nat.add_zero]
    rw [List.length_replicate]
    show tokenizeLoop (Nat.succ (n + 1)) (List.replicate (n + 1) ' ') = _
    simp only [tokenizeLoop, hm]
    simp [tokenizeLoop_nil, matchAt_nil]
  · intro cs h1 h2
    have hfl : matchFlag (takeRun (fun c => c == ' ') cs).2 =
        (none, 0, (takeRun (fun c => c == ' ') cs).2) := by
      apply matchFlag_none
      exact h1
    have hva : matchValue (takeRun (fun c => c == ' ') cs).2 =
        (none, 0, (takeRun (fun c => c == ' ') cs).2) := by
      apply matchValue_none
      have hrw : (matchAt cs).2.2.1 =
          (matchValue (matchFlag (takeRun (fun c => c == ' ') cs).2).2.2).1 := rfl
      rw [hrw, hfl] at h2
      exact h2
    have hm : matchAt cs = ((takeRun (fun c => c == ' ') cs).1.length, none, none,
        (takeRun (fun c => c == ' ') cs).2) := by
      simp [matchAt, hfl, hva]
    rw [hm]
    show cs.take (takeRun (fun c => c == ' ') cs).1.length =
      List.replicate (takeRun (fun c => c == ' ') cs).1.length ' '
    have happ := takeRun_append (fun c => c == ' ') cs
    nth_rewrite 2 [← happ]
    rw [List.take_left]
    have hmem : ∀ b ∈ (takeRun (fun c => c == ' ') cs).1, b = ' ' := by
      intro b hb
      have := takeRun_sat (fun c => c == ' ') cs b hb
      exact eq_of_beq this
    exact List.eq_replicate_of_mem hmem

theorem tokenize_degenerate_token_behavior_witness :
    commandLineParser (String.mk (List.replicate 1 ' ')) = [{ flag := none, value := none }] ∧
    [' '].take (matchAt [' ']).1 = List.replicate (matchAt [' ']).1 ' ' :=
  ⟨tokenize_degenerate_token_behavior.2.1 0,
   tokenize_degenerate_token_behavior.2.2 [' '] rfl rfl⟩

theorem sendStep_evs_any (st : SendSt) (a : Arg) :
    (sendStep st a).evs.any hasActionEv = st.evs.any hasActionEv := by
  unfold sendStep
  split
  · rfl
  · split
    · rfl
    · split
      · rfl
      · simp [sendUnknownWarn, hasActionEv]

theorem sendLoop_no_action (args : List Arg) : ∀ st : SendSt,
    (sendLoop st args).evs.any hasActionEv = st.evs.any hasActionEv := by
  induction args with
  | nil => intro st; rfl
  | cons a rest ih =>
    intro st
    calc (sendLoop st (a :: rest)).evs.any hasActionEv
        = (sendLoop (sendStep st a) rest).evs.any hasActionEv := rfl
      _ = (sendStep st a).evs.any hasActionEv := ih _
      _ = st.evs.any hasActionEv := sendStep_evs_any st a

/-- C4: for every `send` command whose tokens, after processing, yield no
(truthy) target or no (truthy) message, the usage string is logged and no
directory lookup and no `say` is performed. -/
theorem send_missing_target_or_message (dir : Directory) (args : List Arg)
    (h : jsTruthy (sendLoop sendInit (args.drop 1)).target = false ∨
         jsTruthy (sendLoop sendInit (args.drop 1)).message = false) :
    processSend dir args = (sendLoop sendInit (args.drop 1)).evs ++ [Ev.log usageSend] ∧
    (processSend dir args).any hasActionEv = false := by
  simp only [List.drop_one] at h ⊢
  have hcond : (!(jsTruthy (sendLoop sendInit args.tail).target) ||
      !(jsTruthy (sendLoop sendInit args.tail).message)) = true := by
    rcases h with h | h <;> simp [h]
  have heq : processSend dir args = (sendLoop sendInit args.tail).evs ++ [Ev.log usageSend] := by
    unfold processSend
    simp [hcond]
  refine ⟨heq, ?_⟩
  rw [heq, List.any_append, sendLoop_no_action args.tail sendInit]
  simp [sendInit, hasActionEv]

theorem send_missing_target_or_message_witness :
    jsTruthy (sendLoop sendInit ((commandLineParser "send Bob -t contact").drop 1)).message = false ∧
    (processSend bobDir (commandLineParser "send Bob -t contact")).any hasActionEv = false :=
  ⟨by decide,
   (send_missing_target_or_message bobDir (commandLineParser "send Bob -t contact")
     (Or.inr (by decide))).2⟩

/-- C8 counterexample: `send Bob -m hi -m bye` carries a duplicate `-m`
token, yet no usage warning is reported — the later message silently
overwrites the earlier one and the send proceeds with "bye". -/
theorem send_duplicate_message_flag_cex :
    processCommand bobDir "send Bob -m hi -m bye" = [Ev.findContact "Bob", Ev.say "c1" "bye"] ∧
    (processCommand bobDir "send Bob -m hi -m bye").any isSendWarnEv = false := by
  decide

/-- C8 (amended): each unrecognized token (unknown flag, or an extra
positional target once a target is set) is reported as a non-fatal usage
warning and the remaining tokens are still processed from an otherwise
unchanged parse state; a duplicate `-m`/`--message` flag, however, is not
warned: it silently overwrites the previously parsed message. -/
theorem send_token_warning_behavior (pre post : List Arg) (a : Arg) :
    (sendElseBranch (sendLoop sendInit pre) a = true →
      sendLoop sendInit (pre ++ a :: post) =
        sendLoop { sendLoop sendInit pre with
                   evs := (sendLoop sendInit pre).evs ++ sendUnknownWarn a } post) ∧
    ((a.flag == some "m" || a.flag == some "message") = true →
      (sendStep (sendLoop sendInit pre) a).evs = (sendLoop sendInit pre).evs ∧
      (sendStep (sendLoop sendInit pre) a).message = some (a.value.getD "")) := by
  constructor
  · intro h
    have h1 : sendLoop sendInit (pre ++ a :: post) =
        sendLoop (sendStep (sendLoop sendInit pre) a) post := by
      unfold sendLoop
      rw [List.foldl_append]
      rfl
    rw [h1]
    congr 1
    simp only [sendElseBranch, Bool.and_eq_true, Bool.not_eq_true'] at h
    obtain ⟨⟨ht, hm⟩, hp⟩ := h
    unfold sendStep
    rw [ht, hm, hp]
    rfl
  · intro h
    simp only [Bool.or_eq_true, beq_iff_eq] at h
    rcases h with h | h <;> simp [sendStep, h]

theorem send_token_warning_behavior_witness :
    sendElseBranch (sendLoop sendInit [{ flag := none, value := some "Bob" }])
        { flag := some "x", value := some "y" } = true ∧
    sendLoop sendInit ([{ flag := none, value := some "Bob" }] ++
        { flag := some "x", value := some "y" } :: []) =
      sendLoop { sendLoop sendInit [{ flag := none, value := some "Bob" }] with
                 evs := (sendLoop sendInit [{ flag := none, value := some "Bob" }]).evs ++
                   sendUnknownWarn { flag := some "x", value := some "y" } } [] :=
  ⟨by decide,
   (send_token_warning_behavior [{ flag := none, value := some "Bob" }] []
     { flag := some "x", value := some "y" }).1 (by decide)⟩

theorem searchingContactsLog_head (source : String) :
    (searchingContactsLog source).data.head? = some 'S' := by
  have h1 : (searchingContactsLog source).data =
      "Searching contacts using ".data ++ (source.data ++ " ...".data) := by
    simp [searchingContactsLog, String.data_append]
  rw [h1, List.head?_append]
  rfl

theorem searchingContactsLog_not_roomOutcome (source : String) :
    roomOutcomeEv (Ev.log (searchingContactsLog source)) = false := by
  simp only [roomOutcomeEv]
  apply beq_eq_false_iff_ne.mpr
  intro h
  have hh : (searchingContactsLog source).data.head? = some 'N' := by
    rw [h]
    rfl
  rw [searchingContactsLog_head] at hh
  exact absurd hh (by decide)

theorem searchRooms_unset_outcome (dir : Directory) (source : String) :
    (searchRooms dir source none).any roomOutcomeEv = true := by
  unfold searchRooms
  simp only [jsTruthy, Bool.not_false, Bool.true_or, if_true]
  split
  · simp [roomOutcomeEv]
  · simp [roomOutcomeEv]

/-- C2 counterexample: with no contacts and one room whose topic matches
the pattern, `search` with unset targetType renders no room outcome at all
(no table and no "No matching rooms" report) — the early return after the
empty contact search skips the room search the claim requires. -/
theorem search_skips_room_search_cex :
    (search roomOnlyDir "alpha" none).any roomOutcomeEv = false ∧
    (roomOnlyDir.rooms.filter
      (fun r => regexTestCI (compileSearchRegex "alpha") r.topic)).length = 1 := by
  decide

/-- C2 (amended): when targetType is unset, the contact search runs first;
if both the name query and the alias query are empty, the whole search
returns early — the contact no-match report is rendered and the room search
does not run, rendering no room outcome; only when the contact search found
at least one match does the room search run and render its outcome (a
table of matched rooms or the distinct no-match report). -/
theorem search_early_return_behavior (dir : Directory) (p : String) :
    (((dir.contacts.filter (fun c => regexTestCI (compileSearchRegex p) c.name)).isEmpty &&
      (dir.contacts.filter (fun c => regexTestCI (compileSearchRegex p) c.«alias»)).isEmpty) = true →
      (search dir p none).any roomOutcomeEv = false ∧
      (search dir p none).any (fun e => e == Ev.log "No matching contacts found :(") = true) ∧
    (((dir.contacts.filter (fun c => regexTestCI (compileSearchRegex p) c.name)).isEmpty &&
      (dir.contacts.filter (fun c => regexTestCI (compileSearchRegex p) c.«alias»)).isEmpty) = false →
      (search dir p none).any roomOutcomeEv = true) := by
  constructor
  · intro h
    have hs : search dir p none =
        [Ev.log (searchingContactsLog (compileSearchRegex p)),
         Ev.findAllContacts (some ("name", compileSearchRegex p)),
         Ev.findAllContacts (some ("alias", compileSearchRegex p)),
         Ev.log "No matching contacts found :("] := by
      unfold search
      simp [jsTruthy, h]
    rw [hs]
    constructor
    · have hne : ¬ searchingContactsLog (compileSearchRegex p) = "No matching rooms found :(" := by
        have hb := searchingContactsLog_not_roomOutcome (compileSearchRegex p)
        simp only [roomOutcomeEv] at hb
        exact beq_eq_false_iff_ne.mp hb
      simp [List.any_cons, roomOutcomeEv, hne]
    · simp
  · intro h
    unfold search
    simp only [jsTruthy, Bool.not_false, Bool.true_or, if_true, h, if_false, Bool.false_eq_true]
    rw [List.any_append]
    rw [searchRooms_unset_outcome]
    simp

theorem search_early_return_behavior_witness :
    (((emptyDir.contacts.filter
        (fun c => regexTestCI (compileSearchRegex "q") c.name)).isEmpty &&
      (emptyDir.contacts.filter
        (fun c => regexTestCI (compileSearchRegex "q") c.«alias»)).isEmpty) = true) ∧
    (search emptyDir "q" none).any roomOutcomeEv = false :=
  ⟨by decide, ((search_early_return_behavior emptyDir "q").1 (by decide)).1⟩

theorem unescape_escape : ∀ l : List Char, unescapeSource (escapeRegexList l) = l := by
  intro l
  induction l with
  | nil => rfl
  | cons c cs ih =>
    by_cases h : isRegexMeta c = true
    · simp [escapeRegexList, h, unescapeSource, ih]
    · have hc : (c == bslashChar) = false := by
        apply beq_eq_false_iff_ne.mpr
        intro he
        rw [he] at h
        exact h (by decide)
      rcases he : escapeRegexList cs with _ | ⟨e1, erest⟩
      · have hnil : cs = [] := by
          cases cs with
          | nil => rfl
          | cons d ds =>
            exfalso
            by_cases hd : isRegexMeta d = true <;> simp [escapeRegexList, hd] at he
        subst hnil
        simp [escapeRegexList, h, unescapeSource]
      · calc unescapeSource (escapeRegexList (c :: cs))
            = unescapeSource (c :: escapeRegexList cs) := by simp [escapeRegexList, h]
          _ = unescapeSource (c :: e1 :: erest) := by rw [he]
          _ = c :: unescapeSource (e1 :: erest) := by simp [unescapeSource, hc]
          _ = c :: unescapeSource (escapeRegexList cs) := by rw [he]
          _ = c :: cs := by rw [ih]

theorem char_toNat_ofNat_valid (n : Nat) (h : n.isValidChar) : (Char.ofNat n).toNat = n := by
  simp [Char.ofNat, h, Char.ofNatAux, Char.toNat, UInt32.toNat]

theorem lowerChar_beq_low (x c : Char) (hx : x.toNat < 65) :
    (x == lowerChar c) = (x == c) := by
  unfold lowerChar
  split
  · rename_i h
    simp only [Bool.and_eq_true, decide_eq_true_eq] at h
    have hv : (c.toNat + 32).isValidChar := Or.inl (by omega)
    have ht : (Char.ofNat (c.toNat + 32)).toNat = c.toNat + 32 := char_toNat_ofNat_valid _ hv
    have h1 : (x == Char.ofNat (c.toNat + 32)) = false := by
      apply beq_eq_false_iff_ne.mpr
      intro heq
      have h2 := congrArg Char.toNat heq
      rw [ht] at h2
      omega
    have h3 : (x == c) = false := by
      apply beq_eq_false_iff_ne.mpr
      intro heq
      have h2 := congrArg Char.toNat heq
      omega
    rw [h1, h3]
  · rfl

theorem prefCheck_map_lower (needle : List Char) (hn : ∀ c ∈ needle, c.toNat < 65) :
    ∀ l, prefCheck needle (l.map lowerChar) = prefCheck needle l := by
  induction needle with
  | nil => intro l; rfl
  | cons a as ih =>
    intro l
    cases l with
    | nil => rfl
    | cons b bs =>
      simp only [List.map_cons, prefCheck]
      rw [lowerChar_beq_low a b (hn a (by simp)),
        ih (fun c hc => hn c (by simp [hc])) bs]

theorem subCheck_map_lower (needle : List Char) (hn : ∀ c ∈ needle, c.toNat < 65) :
    ∀ l, subCheck needle (l.map lowerChar) = subCheck needle l := by
  intro l
  induction l with
  | nil => rfl
  | cons b bs ih =>
    simp only [List.map_cons, subCheck]
    have h1 : prefCheck needle (lowerChar b :: List.map lowerChar bs) =
        prefCheck needle (b :: bs) := by
      rw [show lowerChar b :: List.map lowerChar bs = List.map lowerChar (b :: bs) from rfl]
      exact prefCheck_map_lower needle hn (b :: bs)
    rw [h1, ih]

theorem searchLiteralModeTest (p s : String)
    (h : (strHeadIs p '/' && strLastIs p '/') = false) :
    searchPatternTest p s = containsCI p s := by
  simp only [searchPatternTest, compileSearchRegex, h, Bool.false_eq_true, if_false,
    regexTestCI, containsCI]
  rw [unescape_escape]

/-- C5 counterexample: the single-character pattern `/` is not wrapped in a
pair of forward slashes, yet `search` routes it to the as-is regex branch
with an empty interior, which matches the subject "Adam"; the
literal-substring mode the claim prescribes for such a pattern would not
match "Adam". -/
theorem search_pattern_single_slash_cex :
    pairSlashWrapped "/" = false ∧
    searchPatternTest "/" "Adam" = true ∧
    containsCI "/" "Adam" = false := by
  decide

/-- C5 (amended): a pattern that starts and ends with a forward slash —
including the single-character pattern `/` itself, whose interior is then
empty — is compiled as a case-insensitive regular expression taken as-is
(its source is the interior `slice(1, -1)`); any other pattern is matched
as a case-insensitive literal substring after metacharacter escaping; in
particular the unslashed pattern `.*` matches exactly the subjects that
literally contain the two-character substring `.*`. -/
theorem search_pattern_mode_selection (p s : String) :
    ((strHeadIs p '/' && strLastIs p '/') = true →
      compileSearchRegex p = String.mk ((p.data.drop 1).dropLast)) ∧
    ((strHeadIs p '/' && strLastIs p '/') = false →
      searchPatternTest p s = containsCI p s) ∧
    (searchPatternTest ".*" s = subCheck ['.', '*'] s.data) := by
  refine ⟨?_, ?_, ?_⟩
  · intro h
    simp [compileSearchRegex, h]
  · exact searchLiteralModeTest p s
  · rw [searchLiteralModeTest ".*" s (by decide)]
    simp only [containsCI]
    rw [show ".*".data.map lowerChar = ['.', '*'] from by decide]
    exact subCheck_map_lower ['.', '*'] (by decide) s.data

theorem search_pattern_mode_selection_witness :
    ((strHeadIs "ab" '/' && strLastIs "ab" '/') = false) ∧
    searchPatternTest "ab" "xaBy" = containsCI "ab" "xaBy" :=
  ⟨by decide, (search_pattern_mode_selection "ab" "xaBy").2.1 (by decide)⟩

/-- C10 counterexample: the command `search -t banana` has a `-t` flag
carrying the non-empty value `banana` (neither `room` nor `contact`), yet
the invocation does render output: the missing-pattern usage error. -/
theorem search_unknown_targettype_cex :
    processCommand emptyDir "search -t banana" =
      [Ev.log "Please provide a search pattern.", Ev.log usageSearch] := by
  decide

/-- C10 (amended): a `search` command whose `-t`/`--targetType` flag
carries a non-empty value other than `room` and `contact` performs no
directory lookup and renders no output at all — provided it also supplies
a non-empty search pattern and no further tokens; without a pattern the
invocation still renders the usage error. -/
theorem search_unknown_targettype_silent (dir : Directory) (p v : String)
    (hp : (p == "") = false) (hv0 : (v == "") = false)
    (hv1 : v ≠ "room") (hv2 : v ≠ "contact") :
    search dir p (some v) = [] ∧
    processSearch dir [{ flag := none, value := some "search" },
                       { flag := none, value := some p },
                       { flag := some "t", value := some v }] = [] := by
  have hcontact : (!(jsTruthy (some v)) || (some v == some "contact")) = false := by
    simp [jsTruthy, hv0, hv2]
  have hroom : (!(jsTruthy (some v)) || (some v == some "room")) = false := by
    simp [jsTruthy, hv0, hv1]
  have hsearch : search dir p (some v) = [] := by
    unfold search searchRooms
    rw [hcontact, hroom]
    simp
  refine ⟨hsearch, ?_⟩
  show processSearch dir _ = []
  unfold processSearch searchLoop
  simp only [jsTruthy, jsOrNull, hv0]
  simp [searchLoop, jsTruthy, jsOrNull, hp, hv0, hsearch]

theorem search_unknown_targettype_silent_witness :
    search emptyDir "x" (some "banana") = [] ∧
    processSearch emptyDir [{ flag := none, value := some "search" },
                            { flag := none, value := some "x" },
                            { flag := some "t", value := some "banana" }] = [] :=
  search_unknown_targettype_silent emptyDir "x" "banana" (by decide) (by decide)
    (by decide) (by decide)
